import Mathlib

/-!
Verification development for the Options Calendar Spread Screener
(`screener.py`).

The Python source is shallowly embedded below:

* dates are integer day numbers, with `weekday d = d % 7` and Friday = 4
  (matching `datetime.date.weekday`, Monday = 0);
* Python floats are modelled by `ℚ` (the program only adds, subtracts,
  scales and compares them);
* JSON-like provider records are modelled by the inductive `Json`;
* network effects are passed in as explicit parameters (the snapshot an
  API call would have produced, the per-attempt outcome of an HTTP
  request);
* a Python function that can raise an uncaught exception is embedded
  with result type `Except String _`, the error carrying the exception
  message.
-/

namespace Screener

/-! ### Screening parameters (module-level constants of `screener.py`) -/

def MIN_OPTION_VOLUME : ℚ := 100

def MIN_OPTION_OPEN_INTEREST : ℚ := 500

def MIN_NET_CREDIT : ℚ := 1 / 100

def MIN_IV_PREMIUM_NEAR_OVER_FAR : ℚ := 0

def REQUIRE_POSITIVE_NET_THETA : Bool := true

/-! ### `get_next_fridays` (screener.py lines 77-98)

`days_to_next_friday = (4 - today.weekday() + 7) % 7`, forced to 7 when
it is 0, then `n` dates one week apart starting at
`today + days_to_next_friday`. -/

/-- Weekday of an integer day number, Monday = 0 .. Sunday = 6 (the
convention of `datetime.date.weekday`). -/
def weekday (d : ℤ) : ℤ := d % 7

/-- The `days_to_next_friday` computation of `get_next_fridays`:
`(4 - today.weekday() + 7) % 7`, replaced by 7 when it is 0. -/
def next_friday_offset (today : ℤ) : ℤ :=
  if (4 - today % 7 + 7) % 7 = 0 then 7 else (4 - today % 7 + 7) % 7

/-- Embedding of `get_next_fridays`: the `n` dates
`current_friday + timedelta(weeks=i)` for `i < n`. -/
def get_next_fridays (today : ℤ) (n : ℕ) : List ℤ :=
  (List.range n).map (fun i => today + next_friday_offset today + 7 * Int.ofNat i)

lemma next_friday_offset_pos (today : ℤ) : 1 ≤ next_friday_offset today := by
  unfold next_friday_offset
  split <;> omega

lemma next_friday_offset_le (today : ℤ) : next_friday_offset today ≤ 7 := by
  unfold next_friday_offset
  split <;> omega

lemma next_friday_offset_friday (today : ℤ) :
    (today + next_friday_offset today) % 7 = 4 := by
  unfold next_friday_offset
  split <;> omega

lemma next_friday_offset_of_friday (today : ℤ) (h : today % 7 = 4) :
    next_friday_offset today = 7 := by
  unfold next_friday_offset
  split <;> omega

lemma get_next_fridays_getD (today : ℤ) (n i : ℕ) (hi : i < n) :
    (get_next_fridays today n).getD i 0 =
      today + next_friday_offset today + 7 * Int.ofNat i := by
  unfold get_next_fridays
  have h : (List.range n)[i]? = some i := by
    simp [hi]
  rw [List.getD_eq_getElem?_getD, List.getElem?_map, h]
  rfl

/-- C5: for every reference date and every `n ≥ 0`, `get_next_fridays`
returns exactly `n` dates, every returned date falls on a Friday,
consecutive returned dates differ by exactly 7 days, when the reference
date is itself a Friday the first returned date is 7 days after it, and
the reference date is never included. -/
theorem C5_get_next_fridays (today : ℤ) (n : ℕ) :
    (get_next_fridays today n).length = n ∧
    (∀ d ∈ get_next_fridays today n, weekday d = 4) ∧
    (∀ i : ℕ, i + 1 < n →
      (get_next_fridays today n).getD (i + 1) 0 =
        (get_next_fridays today n).getD i 0 + 7) ∧
    (weekday today = 4 → 0 < n →
      (get_next_fridays today n).getD 0 0 = today + 7) ∧
    today ∉ get_next_fridays today n := by
  refine ⟨?_, ?_, ?_, ?_, ?_⟩
  · simp [get_next_fridays]
  · intro d hd
    simp only [get_next_fridays, List.mem_map, List.mem_range] at hd
    obtain ⟨i, hi, rfl⟩ := hd
    have h4 := next_friday_offset_friday today
    unfold weekday
    omega
  · intro i hi
    rw [get_next_fridays_getD today n (i + 1) hi,
      get_next_fridays_getD today n i (by omega)]
    simp only [Int.ofNat_eq_coe]
    omega
  · intro hf hn
    rw [get_next_fridays_getD today n 0 hn]
    have h7 := next_friday_offset_of_friday today hf
    simp only [Int.ofNat_eq_coe]
    omega
  · intro hmem
    simp only [get_next_fridays, List.mem_map, List.mem_range] at hmem
    obtain ⟨i, hi, he⟩ := hmem
    have h1 := next_friday_offset_pos today
    simp only [Int.ofNat_eq_coe] at he
    omega

/-- Witness for C5 at a concrete Friday reference date (day 4, a Friday
in the Monday = 0 convention) and `n = 2`. -/
theorem C5_get_next_fridays_witness :
    weekday 4 = 4 ∧ (0 : ℕ) < 2 ∧ (get_next_fridays 4 2).getD 0 0 = 4 + 7 :=
  ⟨by decide, by decide, (C5_get_next_fridays 4 2).2.2.2.1 (by decide) (by decide)⟩

/-! ### `make_api_request` (screener.py lines 38-72)

The loop `for attempt in range(attempts)` issues one HTTP GET per
iteration.  The outcome of each attempt is passed in as a function
`outcomes : ℕ → AttemptOutcome`.  A successful attempt returns the JSON
payload; an `HTTPError` with status 401 or 404 returns `None` at once;
any other caught failure falls through to the retry logic, which sleeps
`delay * backoff_factor ** attempt` before the next attempt and returns
`None` once all attempts are exhausted.  The embedding records the
returned value, the list of sleep durations, and the number of requests
issued. -/

/-- Outcome of one `requests.get` + `raise_for_status` + `.json()`
round trip, as discriminated by the `except` clauses of
`make_api_request`. -/
inductive AttemptOutcome where
  | ok (payload : ℕ)
  | httpErr (status : ℤ)
  | connErr
  | timeoutErr
  | reqErr
deriving DecidableEq

/-- The payload when the attempt succeeded, `none` otherwise. -/
def okPayload : AttemptOutcome → Option ℕ
  | .ok v => some v
  | _ => none

/-- True exactly for the HTTP statuses the code treats as terminal
(401 and 404: `return None` with no retry). -/
def isTerminalHttp : AttemptOutcome → Bool
  | .httpErr c => c == 401 || c == 404
  | _ => false

/-- An attempt outcome that falls through to the retry logic: not a
success and not a terminal 401/404 HTTP error. -/
def retryable (a : AttemptOutcome) : Prop :=
  okPayload a = none ∧ isTerminalHttp a = false

instance (a : AttemptOutcome) : Decidable (retryable a) := by
  unfold retryable
  infer_instance

/-- Observable behaviour of one call to `make_api_request`: the value
returned, the sleeps performed between attempts, and how many requests
were issued. -/
structure MarResult where
  result : Option ℕ
  sleeps : List ℚ
  requests : ℕ
deriving DecidableEq

/-- The `for attempt in range(attempts)` loop of `make_api_request`,
with `fuel` the number of remaining iterations (initially `attempts`)
and `i` the current 0-indexed attempt. -/
def mar_loop (outcomes : ℕ → AttemptOutcome) (attempts : ℕ)
    (delay backoff_factor : ℚ) : ℕ → ℕ → MarResult
  | _, 0 => ⟨none, [], 0⟩
  | i, fuel + 1 =>
    match okPayload (outcomes i) with
    | some v => ⟨some v, [], 1⟩
    | none =>
      if isTerminalHttp (outcomes i) then ⟨none, [], 1⟩
      else if i < attempts - 1 then
        let r := mar_loop outcomes attempts delay backoff_factor (i + 1) fuel
        ⟨r.result, delay * backoff_factor ^ i :: r.sleeps, r.requests + 1⟩
      else ⟨none, [], 1⟩

/-- Embedding of `make_api_request`, starting at attempt 0. -/
def make_api_request (outcomes : ℕ → AttemptOutcome) (attempts : ℕ)
    (delay backoff_factor : ℚ) : MarResult :=
  mar_loop outcomes attempts delay backoff_factor 0 attempts

lemma okPayload_of_terminal {a : AttemptOutcome}
    (h : isTerminalHttp a = true) : okPayload a = none := by
  cases a <;> simp_all [okPayload, isTerminalHttp]

lemma mar_loop_all_retryable (outcomes : ℕ → AttemptOutcome)
    (attempts : ℕ) (delay backoff_factor : ℚ) :
    ∀ fuel i, 0 < fuel → i + fuel = attempts →
    (∀ j, i ≤ j → j < attempts → retryable (outcomes j)) →
    mar_loop outcomes attempts delay backoff_factor i fuel =
      ⟨none, (List.range (fuel - 1)).map
        (fun k => delay * backoff_factor ^ (i + k)), fuel⟩ := by
  intro fuel
  induction fuel with
  | zero => intro i h0 _ _; omega
  | succ f ih =>
    intro i _ heq hr
    have hri : retryable (outcomes i) := hr i le_rfl (by omega)
    rw [mar_loop, hri.1]
    simp only [hri.2, Bool.false_eq_true, if_false]
    cases f with
    | zero =>
      have : ¬ i < attempts - 1 := by omega
      simp [this]
    | succ f2 =>
      have hlt : i < attempts - 1 := by omega
      rw [if_pos hlt]
      rw [ih (i + 1) (by omega) (by omega)
        (fun j hj hj2 => hr j (by omega) hj2)]
      have hmap : ∀ k : ℕ,
          delay * backoff_factor ^ (i + 1 + k) =
            delay * backoff_factor ^ (i + (k + 1)) := by
        intro k
        rw [show i + 1 + k = i + (k + 1) from by omega]
      simp only [Nat.add_sub_cancel, List.range_succ_eq_map, List.map_cons,
        List.map_map]
      refine congrArg (MarResult.mk none · (f2 + 1 + 1)) ?_
      rw [Nat.add_zero]
      refine congrArg (delay * backoff_factor ^ i :: ·) ?_
      refine List.map_congr_left ?_
      intro k _
      simp only [Function.comp]
      rw [show i + 1 + k = i + Nat.succ k from by omega]

lemma mar_loop_terminal (outcomes : ℕ → AttemptOutcome)
    (attempts : ℕ) (delay backoff_factor : ℚ) :
    ∀ t fuel i, t < fuel → i + fuel = attempts →
    (∀ j, i ≤ j → j < i + t → retryable (outcomes j)) →
    isTerminalHttp (outcomes (i + t)) = true →
    (mar_loop outcomes attempts delay backoff_factor i fuel).result = none ∧
    (mar_loop outcomes attempts delay backoff_factor i fuel).requests
      = t + 1 := by
  intro t
  induction t with
  | zero =>
    intro fuel i hf _ _ hterm
    rw [Nat.add_zero] at hterm
    cases fuel with
    | zero => omega
    | succ f =>
      rw [mar_loop, okPayload_of_terminal hterm]
      simp [hterm]
  | succ t ih =>
    intro fuel i hf heq hr hterm
    cases fuel with
    | zero => omega
    | succ f =>
      have hri : retryable (outcomes i) := hr i le_rfl (by omega)
      rw [mar_loop, hri.1]
      simp only [hri.2, Bool.false_eq_true, if_false]
      have hlt : i < attempts - 1 := by omega
      rw [if_pos hlt]
      have hrec := ih f (i + 1) (by omega) (by omega)
        (fun j hj hj2 => hr j (by omega) (by omega))
        (by rw [show i + 1 + t = i + (t + 1) from by omega]; exact hterm)
      exact ⟨hrec.1, by simp [hrec.2]⟩

/-- C6: `make_api_request` returns an absence value immediately, with no
retry, when the HTTP response status is 401 or 404 (exactly `i + 1`
requests are issued when the terminal status arrives at attempt `i`);
for connection errors, timeouts and any other caught failure it retries
up to the configured number of attempts; after exhausting all attempts
it returns an absence value (the embedding is a total function, so no
exception escapes to the caller). -/
theorem C6_make_api_request_terminal_and_exhaustion
    (outcomes : ℕ → AttemptOutcome) (attempts : ℕ)
    (delay backoff_factor : ℚ) :
    (∀ i, i < attempts → (∀ j, j < i → retryable (outcomes j)) →
      (outcomes i = .httpErr 401 ∨ outcomes i = .httpErr 404) →
      (make_api_request outcomes attempts delay backoff_factor).result
        = none ∧
      (make_api_request outcomes attempts delay backoff_factor).requests
        = i + 1) ∧
    ((∀ j, j < attempts → retryable (outcomes j)) →
      (make_api_request outcomes attempts delay backoff_factor).result
        = none ∧
      (make_api_request outcomes attempts delay backoff_factor).requests
        = attempts) := by
  constructor
  · intro i hi hr hterm
    have hterm2 : isTerminalHttp (outcomes i) = true := by
      rcases hterm with h | h <;> rw [h] <;> rfl
    exact mar_loop_terminal outcomes attempts delay backoff_factor
      i attempts 0 hi (by omega)
      (fun j _ hj2 => hr j (by omega)) (by simpa using hterm2)
  · intro hr
    cases attempts with
    | zero => exact ⟨rfl, rfl⟩
    | succ a =>
      rw [make_api_request, mar_loop_all_retryable outcomes (a + 1)
        delay backoff_factor (a + 1) 0 (by omega) (by omega)
        (fun j _ hj2 => hr j hj2)]
      exact ⟨rfl, rfl⟩

/-- Witness for C6: a timeout on attempt 0 followed by a 404 on attempt
1 stops after 2 of 3 requests with an absence result, and persistent
connection errors exhaust all 3 attempts with an absence result. -/
theorem C6_make_api_request_witness :
    ((make_api_request (fun j => if j = 0 then .timeoutErr else .httpErr 404)
        3 5 2).result = none ∧
      (make_api_request (fun j => if j = 0 then .timeoutErr else .httpErr 404)
        3 5 2).requests = 2) ∧
    ((make_api_request (fun _ => .connErr) 3 5 2).result = none ∧
      (make_api_request (fun _ => .connErr) 3 5 2).requests = 3) :=
  ⟨(C6_make_api_request_terminal_and_exhaustion
      (fun j => if j = 0 then .timeoutErr else .httpErr 404) 3 5 2).1
      1 (by decide) (by decide) (by decide),
   (C6_make_api_request_terminal_and_exhaustion
      (fun _ => .connErr) 3 5 2).2 (by decide)⟩

/-- C7: under persistent retryable failure, the wait between attempt `i`
(0-indexed) and attempt `i + 1` is `delay * backoff_factor ^ i`, the
sleep sequence is `delay, delay*backoff_factor, delay*backoff_factor^2,
...` of length `attempts - 1`, and exactly `attempts` requests are
issued. -/
theorem C7_make_api_request_backoff (outcomes : ℕ → AttemptOutcome)
    (attempts : ℕ) (delay backoff_factor : ℚ)
    (hr : ∀ j, j < attempts → retryable (outcomes j)) :
    (make_api_request outcomes attempts delay backoff_factor).sleeps =
      (List.range (attempts - 1)).map (fun i => delay * backoff_factor ^ i) ∧
    (make_api_request outcomes attempts delay backoff_factor).requests
      = attempts := by
  cases attempts with
  | zero => exact ⟨rfl, rfl⟩
  | succ a =>
    rw [make_api_request, mar_loop_all_retryable outcomes (a + 1)
      delay backoff_factor (a + 1) 0 (by omega) (by omega)
      (fun j _ hj2 => hr j hj2)]
    refine ⟨?_, rfl⟩
    simp

/-- Witness for C7: three persistently timing-out attempts with
`delay = 5`, `backoff_factor = 2` sleep `[5, 10]` and issue 3
requests. -/
theorem C7_make_api_request_backoff_witness :
    (make_api_request (fun _ => .timeoutErr) 3 5 2).sleeps = [5, 10] ∧
    (make_api_request (fun _ => .timeoutErr) 3 5 2).requests = 3 := by
  have h := C7_make_api_request_backoff (fun _ => .timeoutErr) 3 5 2
    (by decide)
  refine ⟨?_, h.2⟩
  rw [h.1]
  norm_num [List.range_succ]

/-! ### ATM strike selection (screener.py lines 179-188)

`all_strikes = sorted(list(set(all_strikes)))` followed by
`atm_strike = min(all_strikes, key=lambda x: abs(x - current_price))`.
Python `min` with a key returns the first element attaining the minimal
key, scanning left to right. -/

/-- Python `abs` on a rational. -/
def pyAbs (q : ℚ) : ℚ := if q < 0 then -q else q

/-- Python `min(x :: xs, key=key)`: left fold keeping the current best,
replacing it only when the new element's key is strictly smaller. -/
def pyMin (key : ℚ → ℚ) (x : ℚ) (xs : List ℚ) : ℚ :=
  xs.foldl (fun b a => if key a < key b then a else b) x

/-- `sorted(list(set(l)))`: the distinct elements of `l` in ascending
order. -/
def sortedDedup (l : List ℚ) : List ℚ :=
  List.insertionSort (· ≤ ·) l.dedup

/-- Lines 179-188 of `find_atm_options_for_spread`: `None` when the
strike list is empty (the code returns early before sorting in that
case, with the same result), otherwise the strike minimizing
`abs(x - current_price)` over the deduplicated ascending strikes. -/
def select_atm_strike (all_strikes : List ℚ) (current_price : ℚ) : Option ℚ :=
  match sortedDedup all_strikes with
  | [] => none
  | x :: xs => some (pyMin (fun s => pyAbs (s - current_price)) x xs)

lemma pyMin_mem (key : ℚ → ℚ) :
    ∀ (xs : List ℚ) (x : ℚ), pyMin key x xs ∈ x :: xs := by
  intro xs
  induction xs with
  | nil => intro x; simp [pyMin]
  | cons a xs ih =>
    intro x
    have hstep : pyMin key x (a :: xs)
        = pyMin key (if key a < key x then a else x) xs := rfl
    rw [hstep]
    rcases List.mem_cons.mp (ih (if key a < key x then a else x)) with h1 | h1
    · rw [h1]
      split
      · exact List.mem_cons_of_mem _ (List.mem_cons_self a xs)
      · exact List.mem_cons_self x (a :: xs)
    · exact List.mem_cons_of_mem _ (List.mem_cons_of_mem _ h1)

lemma pyMin_spec (key : ℚ → ℚ) :
    ∀ (xs : List ℚ) (x : ℚ), List.Sorted (· ≤ ·) (x :: xs) →
    (∀ y ∈ x :: xs, key (pyMin key x xs) ≤ key y) ∧
    (∀ y ∈ x :: xs, key y = key (pyMin key x xs) → pyMin key x xs ≤ y) := by
  intro xs
  induction xs with
  | nil =>
    intro x _
    constructor
    · intro y hy
      rw [List.mem_singleton.mp hy]
      exact le_rfl
    · intro y hy _
      rw [List.mem_singleton.mp hy]
      exact le_rfl
  | cons a xs ih =>
    intro x hs
    rcases List.sorted_cons.mp hs with ⟨hx, hs3⟩
    rcases List.sorted_cons.mp hs3 with ⟨ha, hs4⟩
    by_cases hc : key a < key x
    · have hstep : pyMin key x (a :: xs) = pyMin key a xs := by
        show pyMin key (if key a < key x then a else x) xs = pyMin key a xs
        rw [if_pos hc]
      obtain ⟨hmin, htie⟩ := ih a hs3
      rw [hstep]
      constructor
      · intro y hy
        rcases List.mem_cons.mp hy with rfl | hy2
        · have h1 := hmin a (List.mem_cons_self a xs)
          linarith
        · exact hmin y hy2
      · intro y hy hkey
        rcases List.mem_cons.mp hy with rfl | hy2
        · exfalso
          have h1 := hmin a (List.mem_cons_self a xs)
          linarith
        · exact htie y hy2 hkey
    · have hstep : pyMin key x (a :: xs) = pyMin key x xs := by
        show pyMin key (if key a < key x then a else x) xs = pyMin key x xs
        rw [if_neg hc]
      push_neg at hc
      have hs2 : List.Sorted (· ≤ ·) (x :: xs) :=
        List.sorted_cons.mpr
          ⟨fun b hb => hx b (List.mem_cons_of_mem a hb), hs4⟩
      obtain ⟨hmin, htie⟩ := ih x hs2
      rw [hstep]
      constructor
      · intro y hy
        rcases List.mem_cons.mp hy with rfl | hy2
        · exact hmin y (List.mem_cons_self y xs)
        rcases List.mem_cons.mp hy2 with rfl | hy3
        · have h1 := hmin x (List.mem_cons_self x xs)
          linarith
        · exact hmin y (List.mem_cons_of_mem x hy3)
      · intro y hy hkey
        rcases List.mem_cons.mp hy with rfl | hy2
        · exact htie y (List.mem_cons_self y xs) hkey
        rcases List.mem_cons.mp hy2 with rfl | hy3
        · have h1 := hmin x (List.mem_cons_self x xs)
          have hxm : key x = key (pyMin key x xs) :=
            le_antisymm (hc.trans (le_of_eq hkey)) h1
          have h2 := htie x (List.mem_cons_self x xs) hxm
          have h3 : x ≤ y := hx y (List.mem_cons_self y xs)
          linarith
        · exact htie y (List.mem_cons_of_mem x hy3) hkey

lemma sortedDedup_sorted (l : List ℚ) :
    List.Sorted (· ≤ ·) (sortedDedup l) :=
  List.sorted_insertionSort _ _

lemma mem_sortedDedup {l : List ℚ} {x : ℚ} :
    x ∈ sortedDedup l ↔ x ∈ l := by
  unfold sortedDedup
  rw [List.mem_insertionSort, List.mem_dedup]

lemma sortedDedup_ne_nil {l : List ℚ} (h : l ≠ []) : sortedDedup l ≠ [] := by
  cases l with
  | nil => exact absurd rfl h
  | cons a l2 =>
    intro hn
    have hmem : a ∈ sortedDedup (a :: l2) :=
      mem_sortedDedup.mpr (List.mem_cons_self a l2)
    rw [hn] at hmem
    exact absurd hmem (List.not_mem_nil a)

/-- C4: for every non-empty strike list and reference price, the
selected ATM strike belongs to the list, minimizes
`abs(strike - current_price)`, and on ties the numerically lower strike
wins (the first minimizer of the ascending deduplicated scan). -/
theorem C4_select_atm_strike (all_strikes : List ℚ) (current_price : ℚ)
    (h : all_strikes ≠ []) :
    ∃ atm, select_atm_strike all_strikes current_price = some atm ∧
      atm ∈ all_strikes ∧
      (∀ s ∈ all_strikes,
        pyAbs (atm - current_price) ≤ pyAbs (s - current_price)) ∧
      (∀ s ∈ all_strikes,
        pyAbs (s - current_price) = pyAbs (atm - current_price) →
          atm ≤ s) := by
  obtain ⟨x, xs, hx⟩ : ∃ x xs, sortedDedup all_strikes = x :: xs := by
    cases hsd : sortedDedup all_strikes with
    | nil => exact absurd hsd (sortedDedup_ne_nil h)
    | cons x xs => exact ⟨x, xs, rfl⟩
  have hsorted : List.Sorted (· ≤ ·) (x :: xs) := by
    rw [← hx]
    exact sortedDedup_sorted all_strikes
  obtain ⟨hmin, htie⟩ :=
    pyMin_spec (fun s => pyAbs (s - current_price)) xs x hsorted
  refine ⟨pyMin (fun s => pyAbs (s - current_price)) x xs, ?_, ?_, ?_, ?_⟩
  · unfold select_atm_strike
    rw [hx]
  · have hm := pyMin_mem (fun s => pyAbs (s - current_price)) xs x
    rw [← hx] at hm
    exact mem_sortedDedup.mp hm
  · intro s hs
    exact hmin s (by rw [← hx]; exact mem_sortedDedup.mpr hs)
  · intro s hs
    exact htie s (by rw [← hx]; exact mem_sortedDedup.mpr hs)

/-- Witness for C4: the spec's two examples, derived by applying the
theorem at strikes `{90,95,100,105,110}` and evaluating: reference
price 101 selects 100, and at the equidistant reference price 97.5 the
lower strike 95 wins. -/
theorem C4_select_atm_strike_witness :
    select_atm_strike [90, 95, 100, 105, 110] 101 = some 100 ∧
    select_atm_strike [90, 95, 100, 105, 110] (195 / 2) = some 95 ∧
    ((90 : ℚ) ∈ [(90 : ℚ), 95, 100, 105, 110] →
      pyAbs (90 - 195 / 2) = pyAbs (95 - 195 / 2) → (95 : ℚ) ≤ 90) := by
  have h1 : select_atm_strike [90, 95, 100, 105, 110] 101 = some 100 := by
    norm_num [select_atm_strike, sortedDedup, pyMin, pyAbs, List.dedup,
      List.insertionSort, List.orderedInsert, List.pwFilter]
  have h2 : select_atm_strike [90, 95, 100, 105, 110] (195 / 2) = some 95 := by
    norm_num [select_atm_strike, sortedDedup, pyMin, pyAbs, List.dedup,
      List.insertionSort, List.orderedInsert, List.pwFilter]
  refine ⟨h1, h2, ?_⟩
  obtain ⟨atm, hsel, _, _, htie⟩ :=
    C4_select_atm_strike [90, 95, 100, 105, 110] (195 / 2) (by simp)
  have hatm : atm = 95 := by
    rw [hsel] at h2
    exact (Option.some_injective ℚ h2.symm).symm
  intro hmem hkey
  have := htie 90 hmem
  rw [hatm] at this
  exact this hkey

/-! ### `find_atm_options_for_spread` (screener.py lines 124-222)

The snapshot an API call would have produced is passed in as
`options_data : Option (List OptionContract)` (`none` models a failed
fetch, a missing or malformed `tickers` entry, or an empty response,
all of which the code turns into an early `return None`).  The
`get_stock_price` fallback result is passed in as `fallback_price`
(`0.0` when that call fails, exactly the code's failure value).

Line 207 of the source reads `far_term_option = option`, but no name
`option` is in scope, so reaching that assignment raises
`NameError: name 'option' is not defined`; the embedding returns this
as an `Except.error`. -/

/-- The `details` sub-record of a snapshot option contract; each field
is `none` when the corresponding key is absent. -/
structure ContractDetails where
  strike_price : Option ℚ
  contract_type : Option String
  expiration_date : Option String
deriving DecidableEq

/-- A snapshot option contract: its `details` (with `none` modelling an
absent or non-dict value, which the code skips) and the
`underlyingAsset.price` of the snapshot when present. -/
structure OptionContract where
  details : Option ContractDetails
  underlying_price : Option ℚ
deriving DecidableEq

/-- The dictionary returned by `find_atm_options_for_spread` on
success. -/
structure SpreadCandidate where
  ticker : String
  current_price : ℚ
  strike_price : ℚ
  near_leg : OptionContract
  far_leg : OptionContract
deriving DecidableEq

/-- The exception message Python raises at line 207
(`far_term_option = option` with `option` unbound). -/
def nameErrorOption : String := "NameError: name 'option' is not defined"

/-- The leg-search loop of lines 195-210: scan the contracts, record a
near-expiry match, raise `NameError` on a far-expiry match (line 207),
and break once both legs are set. -/
def find_legs_loop (atm_strike : ℚ)
    (near_expiry far_expiry contract_type_to_search : String) :
    List OptionContract → Option OptionContract → Option OptionContract →
    Except String (Option OptionContract × Option OptionContract)
  | [], near_opt, far_opt => .ok (near_opt, far_opt)
  | c :: rest, near_opt, far_opt =>
    let step : Except String (Option OptionContract × Option OptionContract) :=
      match c.details with
      | none => .ok (near_opt, far_opt)
      | some d =>
        if d.strike_price = some atm_strike ∧
            (d.contract_type.getD "").toLower
              = contract_type_to_search.toLower then
          if d.expiration_date = some near_expiry then
            .ok (some c, far_opt)
          else if d.expiration_date = some far_expiry then
            .error nameErrorOption
          else
            .ok (near_opt, far_opt)
        else
          .ok (near_opt, far_opt)
    match step with
    | .error e => .error e
    | .ok (n2, f2) =>
      if n2.isSome ∧ f2.isSome then .ok (n2, f2)
      else find_legs_loop atm_strike near_expiry far_expiry
        contract_type_to_search rest n2 f2

/-- Embedding of `find_atm_options_for_spread`: price extraction with
fallback, strike collection, ATM strike selection, then the leg-search
loop. -/
def find_atm_options_for_spread (ticker : String)
    (options_data : Option (List OptionContract)) (fallback_price : ℚ)
    (near_expiry far_expiry contract_type_to_search : String) :
    Except String (Option SpreadCandidate) :=
  match options_data with
  | none => .ok none
  | some ticker_options =>
    match ticker_options with
    | [] => .ok none
    | first :: _ =>
      let snapshot_price := first.underlying_price.getD 0
      let current_price :=
        if snapshot_price = 0 then fallback_price else snapshot_price
      if current_price = 0 then .ok none
      else
        let all_strikes := ticker_options.filterMap
          (fun c => c.details.bind (fun d => d.strike_price))
        match sortedDedup all_strikes with
        | [] => .ok none
        | x :: xs =>
          let atm_strike := pyMin (fun s => pyAbs (s - current_price)) x xs
          match find_legs_loop atm_strike near_expiry far_expiry
              contract_type_to_search ticker_options none none with
          | .error e => .error e
          | .ok (near_opt, far_opt) =>
            match near_opt, far_opt with
            | some nl, some fl =>
              .ok (some ⟨ticker, current_price, atm_strike, nl, fl⟩)
            | _, _ => .ok none

/-- A concrete snapshot holding, at the (unique, hence ATM) strike 100,
a call contract for the near expiry and one for the far expiry, with
the underlying price 101 available in the snapshot. -/
def c1_snapshot : List OptionContract :=
  [⟨some ⟨some 100, some "call", some "2026-10-16"⟩, some 101⟩,
   ⟨some ⟨some 100, some "call", some "2026-10-23"⟩, some 101⟩]

/-- C1 (code bug): on a snapshot containing both legs at the ATM strike
for the requested contract type, `find_atm_options_for_spread` does not
return the candidate record the claim describes; it raises
`NameError` at line 207 (`far_term_option = option`, with `option` an
undefined name). -/
theorem C1_find_atm_name_error :
    find_atm_options_for_spread "AAPL" (some c1_snapshot) 0
      "2026-10-16" "2026-10-23" "call" = .error nameErrorOption := by
  simp [find_atm_options_for_spread, c1_snapshot, sortedDedup, pyMin,
    pyAbs, find_legs_loop, List.dedup, List.insertionSort,
    List.orderedInsert, List.pwFilter]

/-! ### The scan loop of `main` (screener.py lines 379-410)

For each (ticker, contract type) unit, `main` calls
`find_atm_options_for_spread` with no surrounding `try`; a `None`
result skips the unit, while an exception propagates out of the loop
and aborts the run.  (The downstream extraction/filter steps of an
accepted unit cannot raise, so the loop below collects the surviving
candidates.) -/

/-- One (ticker, contract_type) scan unit: the snapshot its fetch would
produce and the fallback price. -/
structure ScanUnit where
  ticker : String
  options_data : Option (List OptionContract)
  fallback_price : ℚ
deriving DecidableEq

/-- The per-ticker scan loop for one contract type: a `None` candidate
skips the unit; an uncaught exception aborts the whole loop. -/
def scan_tickers (near_expiry far_expiry contract_type : String) :
    List ScanUnit → Except String (List SpreadCandidate)
  | [] => .ok []
  | u :: rest =>
    match find_atm_options_for_spread u.ticker u.options_data
        u.fallback_price near_expiry far_expiry contract_type with
    | .error e => .error e
    | .ok none => scan_tickers near_expiry far_expiry contract_type rest
    | .ok (some cand) =>
      match scan_tickers near_expiry far_expiry contract_type rest with
      | .error e => .error e
      | .ok cands => .ok (cand :: cands)

/-- A snapshot with both legs present at the ATM strike, used as the
poison scan unit for C2. -/
def c2_snapshot : List OptionContract :=
  [⟨some ⟨some 250, some "call", some "2026-10-16"⟩, some 251⟩,
   ⟨some ⟨some 250, some "call", some "2026-10-23"⟩, some 251⟩]

/-- C2 (code bug): a unit whose fetch failed is skipped and the scan
proceeds (first conjunct), but a unit whose snapshot contains both legs
at the ATM strike raises `NameError` out of
`find_atm_options_for_spread`, aborting the whole scan loop (second
conjunct) — so a single scan unit can abort the run, contrary to the
claim. -/
theorem C2_scan_loop_abort :
    scan_tickers "2026-10-16" "2026-10-23" "call"
      [⟨"TSLA", none, 0⟩] = .ok [] ∧
    scan_tickers "2026-10-16" "2026-10-23" "call"
      [⟨"TSLA", none, 0⟩, ⟨"NVDA", some c2_snapshot, 0⟩]
      = .error nameErrorOption := by
  constructor
  · rfl
  · simp [scan_tickers, find_atm_options_for_spread, c2_snapshot,
      sortedDedup, pyMin, pyAbs, find_legs_loop, List.dedup,
      List.insertionSort, List.orderedInsert, List.pwFilter]

/-! ### `extract_detailed_option_data` (screener.py lines 224-260)

The option-leg record is an arbitrary JSON-like value.  `dict.get(k)`
returns Python `None` (here `Json.null`) when the key is absent, and
`dict.get(k, default)` returns the given default.  The function first
checks Python truthiness of its argument (`if not option_leg`) and
returns the all-default record for falsy input. -/

/-- JSON-like Python values as handled by the extractor. -/
inductive Json where
  | null
  | num (q : ℚ)
  | str (s : String)
  | obj (fields : List (String × Json))

/-- Python truthiness of a JSON-like value (`None`, `0`, `""` and empty
containers are falsy). -/
def pyTruthy : Json → Bool
  | .null => false
  | .num q => if q = 0 then false else true
  | .str s => if s = "" then false else true
  | .obj fs => if fs.isEmpty then false else true

/-- Dictionary key lookup; `none` when the key is absent (the extractor
only applies it to values that are dictionaries in the source). -/
def jlookup : Json → String → Option Json
  | .obj fs, k => fs.lookup k
  | _, _ => none

/-- Python `d.get(k, default)`. -/
def jgetD (j : Json) (k : String) (d : Json) : Json :=
  (jlookup j k).getD d

/-- Python `d.get(k)` (default `None`). -/
def jget (j : Json) (k : String) : Json :=
  (jlookup j k).getD .null

/-- The all-default record of lines 232-238: zeroes for the numeric
fields, `None` for the identity fields. -/
def defaultLegJson : Json :=
  .obj [("bid", .num 0), ("ask", .num 0), ("mid", .num 0),
    ("iv", .num 0), ("theta", .num 0), ("delta", .num 0),
    ("gamma", .num 0), ("vega", .num 0), ("volume", .num 0),
    ("oi", .num 0), ("expiry_date", .null), ("strike_price", .null),
    ("contract_type", .null), ("underlying_ticker", .null)]

/-- Embedding of `extract_detailed_option_data`. -/
def extract_detailed_option_data (option_leg : Json) : Json :=
  if pyTruthy option_leg = false then defaultLegJson
  else
    let quote := jgetD option_leg "last_quote" (.obj [])
    let greeks := jgetD option_leg "greeks" (.obj [])
    let details := jgetD option_leg "details" (.obj [])
    let day_data := jgetD option_leg "day" (.obj [])
    .obj [
      ("bid", jgetD quote "bid" (.num 0)),
      ("ask", jgetD quote "ask" (.num 0)),
      ("mid", jgetD quote "midpoint" (.num 0)),
      ("iv", jgetD greeks "implied_volatility" (.num 0)),
      ("theta", jgetD greeks "theta" (.num 0)),
      ("delta", jgetD greeks "delta" (.num 0)),
      ("gamma", jgetD greeks "gamma" (.num 0)),
      ("vega", jgetD greeks "vega" (.num 0)),
      ("volume", jgetD day_data "volume" (.num 0)),
      ("oi", jgetD option_leg "open_interest" (.num 0)),
      ("expiry_date", jget details "expiration_date"),
      ("strike_price", jget details "strike_price"),
      ("contract_type", jget details "contract_type"),
      ("underlying_ticker", jget (jgetD details "underlying_asset" (.obj [])) "ticker")]

lemma extract_of_truthy (leg : Json) (hp : pyTruthy leg = true) :
    extract_detailed_option_data leg = .obj [
      ("bid", jgetD (jgetD leg "last_quote" (.obj [])) "bid" (.num 0)),
      ("ask", jgetD (jgetD leg "last_quote" (.obj [])) "ask" (.num 0)),
      ("mid", jgetD (jgetD leg "last_quote" (.obj [])) "midpoint" (.num 0)),
      ("iv", jgetD (jgetD leg "greeks" (.obj [])) "implied_volatility" (.num 0)),
      ("theta", jgetD (jgetD leg "greeks" (.obj [])) "theta" (.num 0)),
      ("delta", jgetD (jgetD leg "greeks" (.obj [])) "delta" (.num 0)),
      ("gamma", jgetD (jgetD leg "greeks" (.obj [])) "gamma" (.num 0)),
      ("vega", jgetD (jgetD leg "greeks" (.obj [])) "vega" (.num 0)),
      ("volume", jgetD (jgetD leg "day" (.obj [])) "volume" (.num 0)),
      ("oi", jgetD leg "open_interest" (.num 0)),
      ("expiry_date", jget (jgetD leg "details" (.obj [])) "expiration_date"),
      ("strike_price", jget (jgetD leg "details" (.obj [])) "strike_price"),
      ("contract_type", jget (jgetD leg "details" (.obj [])) "contract_type"),
      ("underlying_ticker",
        jget (jgetD (jgetD leg "details" (.obj [])) "underlying_asset" (.obj [])) "ticker")] := by
  simp only [extract_detailed_option_data, hp]
  rfl

/-- The concrete record exhibiting non-idempotence: its extraction has
`bid = 2`, whose re-extraction has `bid = 0`. -/
def c8_leg : Json := .obj [("last_quote", .obj [("bid", .num 2)])]

/-- Counterexample for C8: extraction is not idempotent.  Re-extracting
the extraction of a record whose quote carries `bid = 2` loses the bid
(the output stores it under `"bid"`, but a second extraction reads
`"last_quote"`, which the output does not have). -/
theorem C8_extract_not_idempotent :
    extract_detailed_option_data (extract_detailed_option_data c8_leg)
      ≠ extract_detailed_option_data c8_leg := by
  intro h
  have h2 : jget (extract_detailed_option_data
        (extract_detailed_option_data c8_leg)) "bid"
      = jget (extract_detailed_option_data c8_leg) "bid" :=
    congrArg (fun j => jget j "bid") h
  have e1 : jget (extract_detailed_option_data
      (extract_detailed_option_data c8_leg)) "bid" = .num 0 := rfl
  have e2 : jget (extract_detailed_option_data c8_leg) "bid" = .num 2 := rfl
  rw [e1, e2] at h2
  injection h2 with h3
  exact absurd h3 (by norm_num)

/-- C8 amended: extraction of an absent/empty record is the all-default
record, and re-extracting any extracted output yields the all-default
record (so extraction is idempotent exactly at inputs whose extraction
is already the all-default record, not at every input). -/
theorem C8_extract_amended :
    extract_detailed_option_data .null = defaultLegJson ∧
    extract_detailed_option_data (.obj []) = defaultLegJson ∧
    ∀ leg, extract_detailed_option_data (extract_detailed_option_data leg)
      = defaultLegJson := by
  refine ⟨rfl, rfl, ?_⟩
  intro leg
  by_cases hp : pyTruthy leg = true
  · rw [extract_of_truthy leg hp]
    rfl
  · rw [Bool.not_eq_true] at hp
    have h1 : extract_detailed_option_data leg = defaultLegJson := by
      simp [extract_detailed_option_data, hp]
    rw [h1]
    rfl

/-- The provider-supplied value under key `k` of `container` is either
absent or a nonnegative number (the extractor passes such values
through unchanged and substitutes 0 when absent). -/
def nonnegNumField (container : Json) (k : String) : Prop :=
  match jlookup container k with
  | none => True
  | some (.num q) => 0 ≤ q
  | some _ => False

/-- The provider-supplied value under key `k` of `container` is either
absent or a nonnegative integer. -/
def nonnegIntField (container : Json) (k : String) : Prop :=
  match jlookup container k with
  | none => True
  | some (.num q) => 0 ≤ q ∧ q.den = 1
  | some _ => False

lemma numField_spec (container : Json) (k : String)
    (h : nonnegNumField container k) :
    ∃ q, jgetD container k (.num 0) = .num q ∧ 0 ≤ q := by
  unfold nonnegNumField at h
  unfold jgetD
  cases hq : jlookup container k with
  | none => exact ⟨0, rfl, le_refl 0⟩
  | some v =>
    rw [hq] at h
    cases v with
    | num q => exact ⟨q, rfl, h⟩
    | null => exact h.elim
    | str s => exact h.elim
    | obj fs => exact h.elim

lemma intField_spec (container : Json) (k : String)
    (h : nonnegIntField container k) :
    ∃ q, jgetD container k (.num 0) = .num q ∧ 0 ≤ q ∧ q.den = 1 := by
  unfold nonnegIntField at h
  unfold jgetD
  cases hq : jlookup container k with
  | none => exact ⟨0, rfl, le_refl 0, rfl⟩
  | some v =>
    rw [hq] at h
    cases v with
    | num q => exact ⟨q, rfl, h⟩
    | null => exact h.elim
    | str s => exact h.elim
    | obj fs => exact h.elim

/-- A provider record carrying a negative bid, which the extractor
passes straight through. -/
def c9_leg : Json := .obj [("last_quote", .obj [("bid", .num (-1))])]

/-- Counterexample for C9: the extractor performs no clamping, so a
record whose quote carries `bid = -1` extracts to a `LegData` with a
negative bid, violating the claimed unconditional invariant
`bid ≥ 0`. -/
theorem C9_extract_negative_bid :
    jget (extract_detailed_option_data c9_leg) "bid" = Json.num (-1) ∧
    ¬ (0 : ℚ) ≤ -1 := by
  exact ⟨rfl, by norm_num⟩

/-- C9 amended: the extracted `LegData` satisfies
`bid, ask, mid ≥ 0` and `volume, oi ≥ 0` (integers) provided the
provider-supplied values under the corresponding source keys are, when
present, themselves nonnegative numbers (integers for volume and open
interest); the defaults substituted for absent values are 0, and
supplied values are passed through unchanged. -/
theorem C9_extract_invariant_amended (leg : Json)
    (hbid : nonnegNumField (jgetD leg "last_quote" (.obj [])) "bid")
    (hask : nonnegNumField (jgetD leg "last_quote" (.obj [])) "ask")
    (hmid : nonnegNumField (jgetD leg "last_quote" (.obj [])) "midpoint")
    (hvol : nonnegIntField (jgetD leg "day" (.obj [])) "volume")
    (hoi : nonnegIntField leg "open_interest") :
    (∃ q, jget (extract_detailed_option_data leg) "bid" = Json.num q ∧ 0 ≤ q) ∧
    (∃ q, jget (extract_detailed_option_data leg) "ask" = Json.num q ∧ 0 ≤ q) ∧
    (∃ q, jget (extract_detailed_option_data leg) "mid" = Json.num q ∧ 0 ≤ q) ∧
    (∃ q, jget (extract_detailed_option_data leg) "volume" = Json.num q ∧
      0 ≤ q ∧ q.den = 1) ∧
    (∃ q, jget (extract_detailed_option_data leg) "oi" = Json.num q ∧
      0 ≤ q ∧ q.den = 1) := by
  by_cases hp : pyTruthy leg = true
  · rw [extract_of_truthy leg hp]
    exact ⟨numField_spec _ _ hbid, numField_spec _ _ hask,
      numField_spec _ _ hmid, intField_spec _ _ hvol,
      intField_spec _ _ hoi⟩
  · rw [Bool.not_eq_true] at hp
    have h1 : extract_detailed_option_data leg = defaultLegJson := by
      simp [extract_detailed_option_data, hp]
    rw [h1]
    exact ⟨⟨0, rfl, le_refl 0⟩, ⟨0, rfl, le_refl 0⟩, ⟨0, rfl, le_refl 0⟩,
      ⟨0, rfl, le_refl 0, rfl⟩, ⟨0, rfl, le_refl 0, rfl⟩⟩

/-- A well-formed provider record for the C9 witness. -/
def c9_witness_leg : Json :=
  .obj [("last_quote", .obj [("bid", .num 2), ("ask", .num (3 / 2))]),
    ("day", .obj [("volume", .num 200)]),
    ("open_interest", .num 600)]

/-- Witness for the amended C9 at a concrete record with bid 2,
ask 1.5, volume 200 and open interest 600. -/
theorem C9_extract_invariant_amended_witness :
    ∃ q, jget (extract_detailed_option_data c9_witness_leg) "bid"
      = Json.num q ∧ 0 ≤ q :=
  (C9_extract_invariant_amended c9_witness_leg
    (show (0 : ℚ) ≤ 2 by norm_num)
    (show (0 : ℚ) ≤ 3 / 2 by norm_num)
    (show True from trivial)
    (show (0 : ℚ) ≤ 200 ∧ (200 : ℚ).den = 1 from
      ⟨by norm_num, by norm_num [Rat.den_ofNat]⟩)
    (show (0 : ℚ) ≤ 600 ∧ (600 : ℚ).den = 1 from
      ⟨by norm_num, by norm_num [Rat.den_ofNat]⟩)).1

/-! ### `filter_spread_candidate` (screener.py lines 263-339)

The screening thresholds are module-level globals; they are gathered in
a `ScreenConfig` record, with `defaultConfig` holding the values of
lines 20-28.  The filter reads, from each extracted leg record, the
fields below (`LegQuote`); the result dictionary's display-formatted
strings are presentations of the numeric fields kept in `SpreadRow`
(`net_credit_num` is the raw `_NetCreditNum`). -/

/-- The module-level screening thresholds. -/
structure ScreenConfig where
  min_option_volume : ℚ
  min_open_interest : ℚ
  min_net_credit : ℚ
  min_iv_premium : ℚ
  require_positive_net_theta : Bool

/-- The values of the module-level constants of lines 20-28. -/
def defaultConfig : ScreenConfig :=
  ⟨MIN_OPTION_VOLUME, MIN_OPTION_OPEN_INTEREST, MIN_NET_CREDIT,
    MIN_IV_PREMIUM_NEAR_OVER_FAR, REQUIRE_POSITIVE_NET_THETA⟩

/-- The fields `filter_spread_candidate` reads from an extracted leg. -/
structure LegQuote where
  bid : ℚ
  ask : ℚ
  iv : ℚ
  theta : ℚ
  volume : ℚ
  oi : ℚ
  expiry_date : Option String

/-- The failing metric named by the failure-reason string. -/
inductive FilterReason where
  | liquidity
  | netCredit
  | ivPremium
  | netTheta
deriving DecidableEq

/-- The numeric and identifying content of the success dictionary of
lines 325-338. -/
structure SpreadRow where
  ticker : String
  strike : ℚ
  near_expiry : Option String
  far_expiry : Option String
  net_credit_num : ℚ
  net_theta : ℚ
  iv_diff : ℚ

/-- Embedding of `filter_spread_candidate`: the four checks in source
order, each returning `(False, reason, None)` on failure, with the
success tuple `(True, None, result)` at the end. -/
def filter_spread_candidate (cfg : ScreenConfig) (ticker : String)
    (strike : ℚ) (near far : LegQuote) :
    Bool × Option FilterReason × Option SpreadRow :=
  if ¬ (near.volume ≥ cfg.min_option_volume ∧
        near.oi ≥ cfg.min_open_interest ∧
        far.volume ≥ cfg.min_option_volume ∧
        far.oi ≥ cfg.min_open_interest) then
    (false, some .liquidity, none)
  else
    let net_credit := near.bid - far.ask
    if net_credit < cfg.min_net_credit then
      (false, some .netCredit, none)
    else
      let iv_difference := near.iv - far.iv
      if iv_difference < cfg.min_iv_premium then
        (false, some .ivPremium, none)
      else
        let net_theta := (-1) * near.theta + far.theta
        if cfg.require_positive_net_theta = true ∧ net_theta ≤ 0 then
          (false, some .netTheta, none)
        else
          (true, none, some ⟨ticker, strike, near.expiry_date,
            far.expiry_date, net_credit, net_theta, iv_difference⟩)

/-- The spec's example near leg: bid 2.00, iv 0.30, theta -0.08,
volume 200, open interest 600. -/
def c3_near : LegQuote :=
  ⟨2, 0, 30 / 100, -(8 / 100), 200, 600, some "2026-10-16"⟩

/-- The spec's example far leg: ask 1.50, iv 0.22, theta -0.03,
volume 150, open interest 700. -/
def c3_far : LegQuote :=
  ⟨0, 3 / 2, 22 / 100, -(3 / 100), 150, 700, some "2026-10-23"⟩

/-- The far leg with volume lowered to 50 (the rejection example). -/
def c3_far_lowvol : LegQuote :=
  ⟨0, 3 / 2, 22 / 100, -(3 / 100), 50, 700, some "2026-10-23"⟩

/-- C3: the filter accepts exactly when the liquidity, net-credit, IV
premium and (when enabled) net-theta checks all pass; the failure
reason is the first failing check in source order; an accepted pair
yields the success row and a rejected pair yields no row; and the
spec's concrete example pair is accepted with default thresholds while
the same pair with far volume 50 is rejected for liquidity. -/
theorem C3_filter_spread_candidate :
    (∀ (cfg : ScreenConfig) (ticker : String) (strike : ℚ)
      (near far : LegQuote),
      ((filter_spread_candidate cfg ticker strike near far).1 = true ↔
        ((near.volume ≥ cfg.min_option_volume ∧
          near.oi ≥ cfg.min_open_interest ∧
          far.volume ≥ cfg.min_option_volume ∧
          far.oi ≥ cfg.min_open_interest) ∧
         near.bid - far.ask ≥ cfg.min_net_credit ∧
         near.iv - far.iv ≥ cfg.min_iv_premium ∧
         (cfg.require_positive_net_theta = true →
           (-1) * near.theta + far.theta > 0))) ∧
      ((filter_spread_candidate cfg ticker strike near far).2.1 =
        if ¬ (near.volume ≥ cfg.min_option_volume ∧
              near.oi ≥ cfg.min_open_interest ∧
              far.volume ≥ cfg.min_option_volume ∧
              far.oi ≥ cfg.min_open_interest) then some .liquidity
        else if near.bid - far.ask < cfg.min_net_credit then some .netCredit
        else if near.iv - far.iv < cfg.min_iv_premium then some .ivPremium
        else if cfg.require_positive_net_theta = true ∧
            (-1) * near.theta + far.theta ≤ 0 then some .netTheta
        else none) ∧
      ((filter_spread_candidate cfg ticker strike near far).1 = true →
        (filter_spread_candidate cfg ticker strike near far).2.2 =
          some ⟨ticker, strike, near.expiry_date, far.expiry_date,
            near.bid - far.ask, (-1) * near.theta + far.theta,
            near.iv - far.iv⟩) ∧
      ((filter_spread_candidate cfg ticker strike near far).1 = false →
        (filter_spread_candidate cfg ticker strike near far).2.2 = none)) ∧
    (filter_spread_candidate defaultConfig "AAPL" 100 c3_near c3_far).1
      = true ∧
    (filter_spread_candidate defaultConfig "AAPL" 100 c3_near
      c3_far_lowvol).2.1 = some .liquidity := by
  refine ⟨?_, ?_, ?_⟩
  · intro cfg ticker strike near far
    by_cases h1 : near.volume ≥ cfg.min_option_volume ∧
        near.oi ≥ cfg.min_open_interest ∧
        far.volume ≥ cfg.min_option_volume ∧
        far.oi ≥ cfg.min_open_interest
    case neg =>
      have e : filter_spread_candidate cfg ticker strike near far
          = (false, some .liquidity, none) := by
        unfold filter_spread_candidate
        rw [if_pos h1]
      rw [e]
      refine ⟨by simp [h1], by rw [if_pos h1],
        fun hT => absurd hT (by decide), fun _ => rfl⟩
    case pos =>
      by_cases h2 : near.bid - far.ask < cfg.min_net_credit
      · have e : filter_spread_candidate cfg ticker strike near far
            = (false, some .netCredit, none) := by
          unfold filter_spread_candidate
          rw [if_neg (not_not_intro h1), if_pos h2]
        rw [e]
        refine ⟨?_, by rw [if_neg (not_not_intro h1), if_pos h2],
          fun hT => absurd hT (by decide), fun _ => rfl⟩
        constructor
        · intro hF
          exact absurd hF (by decide)
        · rintro ⟨_, hcr, _⟩
          linarith
      · by_cases h3 : near.iv - far.iv < cfg.min_iv_premium
        · have e : filter_spread_candidate cfg ticker strike near far
              = (false, some .ivPremium, none) := by
            unfold filter_spread_candidate
            rw [if_neg (not_not_intro h1), if_neg h2, if_pos h3]
          rw [e]
          refine ⟨?_,
            by rw [if_neg (not_not_intro h1), if_neg h2, if_pos h3],
            fun hT => absurd hT (by decide), fun _ => rfl⟩
          constructor
          · intro hF
            exact absurd hF (by decide)
          · rintro ⟨_, _, hiv, _⟩
            linarith
        · by_cases h4 : cfg.require_positive_net_theta = true ∧
              (-1) * near.theta + far.theta ≤ 0
          · have e : filter_spread_candidate cfg ticker strike near far
                = (false, some .netTheta, none) := by
              unfold filter_spread_candidate
              rw [if_neg (not_not_intro h1), if_neg h2, if_neg h3,
                if_pos h4]
            rw [e]
            refine ⟨?_,
              by rw [if_neg (not_not_intro h1), if_neg h2, if_neg h3,
                if_pos h4],
              fun hT => absurd hT (by decide), fun _ => rfl⟩
            constructor
            · intro hF
              exact absurd hF (by decide)
            · rintro ⟨_, _, _, hth⟩
              have := hth h4.1
              linarith [h4.2]
          · have e : filter_spread_candidate cfg ticker strike near far
                = (true, none, some ⟨ticker, strike, near.expiry_date,
                    far.expiry_date, near.bid - far.ask,
                    (-1) * near.theta + far.theta, near.iv - far.iv⟩) := by
              unfold filter_spread_candidate
              rw [if_neg (not_not_intro h1), if_neg h2, if_neg h3,
                if_neg h4]
            rw [e]
            refine ⟨?_,
              by rw [if_neg (not_not_intro h1), if_neg h2, if_neg h3,
                if_neg h4],
              fun _ => rfl, fun hF => absurd hF (by simp)⟩
            constructor
            · intro _
              push_neg at h2 h3
              refine ⟨h1, h2, h3, ?_⟩
              intro hreq
              by_contra hle
              push_neg at hle
              exact h4 ⟨hreq, hle⟩
            · intro _
              rfl
  · norm_num [filter_spread_candidate, defaultConfig, c3_near, c3_far,
      MIN_OPTION_VOLUME, MIN_OPTION_OPEN_INTEREST, MIN_NET_CREDIT,
      MIN_IV_PREMIUM_NEAR_OVER_FAR, REQUIRE_POSITIVE_NET_THETA]
  · norm_num [filter_spread_candidate, defaultConfig, c3_near,
      c3_far_lowvol, MIN_OPTION_VOLUME, MIN_OPTION_OPEN_INTEREST,
      MIN_NET_CREDIT, MIN_IV_PREMIUM_NEAR_OVER_FAR,
      REQUIRE_POSITIVE_NET_THETA]

/-- Witness for C3: the acceptance iff applied at the concrete example
legs with default thresholds. -/
theorem C3_filter_spread_candidate_witness :
    (filter_spread_candidate defaultConfig "TSLA" 250 c3_near c3_far).1
      = true :=
  ((C3_filter_spread_candidate.1 defaultConfig "TSLA" 250
      c3_near c3_far).1).mpr
    (by norm_num [defaultConfig, c3_near, c3_far, MIN_OPTION_VOLUME,
      MIN_OPTION_OPEN_INTEREST, MIN_NET_CREDIT,
      MIN_IV_PREMIUM_NEAR_OVER_FAR, REQUIRE_POSITIVE_NET_THETA])

/-! ### Module entry (screener.py lines 427-431)

The file ends with two `if __name__ == "__main__":` guards.  The first
(lines 427-428) executes `print(results_df.to_string(index=False))` at
module scope, where no global `results_df` exists (`results_df` is a
local of `main`, lines 416-420); the second (lines 430-431) would call
`main()`.  Running the script executes the guards in order, so Python
resolves the name `results_df` first.  The embedding models the
module-scope name resolution these two statements perform. -/

/-- The names bound at module scope of `screener.py` by the time the
`if __name__ == "__main__":` guards run (imports, constants and
function definitions); `results_df` is not among them. -/
def module_top_level_names : List String :=
  ["os", "requests", "pd", "date", "timedelta", "time",
   "POLYGON_API_KEY", "STOCKS_TO_SCAN", "MIN_OPTION_VOLUME",
   "MIN_OPTION_OPEN_INTEREST", "MIN_NET_CREDIT",
   "MIN_IV_PREMIUM_NEAR_OVER_FAR", "REQUIRE_POSITIVE_NET_THETA",
   "CONTRACT_TYPE_TO_SCAN", "DEFAULT_RETRY_ATTEMPTS",
   "DEFAULT_RETRY_DELAY_SECONDS", "make_api_request",
   "get_next_fridays", "get_stock_price", "find_atm_options_for_spread",
   "extract_detailed_option_data", "filter_spread_candidate", "main"]

/-- Python name resolution at module scope: a bound name evaluates, an
unbound one raises `NameError`. -/
def evalName (n : String) : Except String Unit :=
  if module_top_level_names.contains n then .ok ()
  else .error ("NameError: name '" ++ n ++ "' is not defined")

/-- Running `python screener.py`: the first `__main__` guard evaluates
`results_df` (line 428) and only afterwards would the second guard
call `main()` (line 431). -/
def script_entry : Except String Unit :=
  match evalName "results_df" with
  | .error e => .error e
  | .ok _ => evalName "main"

/-- C10 (code bug): executing the script never reaches `main()` — and
hence never prints the ranked spread list — because line 428 references
`results_df` at module scope, raising `NameError` first.  (Inside
`main` itself, lines 417-418 do sort by the raw numeric
`_NetCreditNum` column, but pandas `sort_values` with its default
quicksort also does not guarantee the claimed stable tie order.) -/
theorem C10_script_entry_name_error :
    script_entry = .error "NameError: name 'results_df' is not defined" := by
  rfl

end Screener
